import Mathlib

/-!
Verification of the transcription-to-summarization pipeline of
`main2.py` (AI-Powered-Audio-Summarizer).

Strings are modelled as `List Char` (Python `str`).  Every definition in
the `Summarizer` namespace is a direct shallow embedding of the
corresponding Python code; comments cite the source lines.
-/

namespace Summarizer

/-- Convert a Lean string literal to the `List Char` model of Python `str`. -/
def str (s : String) : List Char := s.data

/-- Python `str.isspace` characters relevant to `str.strip()` with no
arguments: space, tab, newline, carriage return, vertical tab, form feed. -/
def isSpace (c : Char) : Bool :=
  c = ' ' || c = '\t' || c = '\n' || c = '\r' || c = '\x0b' || c = '\x0c'

/-- Python `s.strip()`: drop leading and trailing whitespace. -/
def pyStrip (s : List Char) : List Char :=
  ((s.dropWhile isSpace).reverse.dropWhile isSpace).reverse

/-- Python `s.split("\n")` (`main2.py` line 460): split on every newline,
keeping empty pieces; `"".split("\n") == [""]`. -/
def splitLines : List Char → List (List Char)
  | [] => [[]]
  | c :: rest =>
    if c = '\n' then [] :: splitLines rest
    else
      match splitLines rest with
      | [] => [[c]]
      | l :: ls => (c :: l) :: ls

/-- The timestamp-range marker `"-->"` (`main2.py` line 467). -/
def arrow : List Char := ['-', '-', '>']

/-- Python `"-->" in line` (`main2.py` line 467). -/
def containsArrow : List Char → Bool
  | [] => false
  | c :: rest => arrow.isPrefixOf (c :: rest) || containsArrow rest

/-- Python `line.split("-->")` (`main2.py` line 468): scan left to right,
splitting at each non-overlapping occurrence of `"-->"`. -/
def splitArrow : List Char → List (List Char)
  | '-' :: '-' :: '>' :: rest => [] :: splitArrow rest
  | c :: rest =>
    match splitArrow rest with
    | [] => [[c]]
    | l :: ls => (c :: l) :: ls
  | [] => [[]]

/-- The per-line body of the loop in `format_transcript`
(`main2.py` lines 464-469): if the line contains `"-->"`, replace it by
`line.split("-->")[1].strip()`. -/
def processLine (l : List Char) : List Char :=
  if containsArrow l then pyStrip ((splitArrow l).getD 1 []) else l

/-- The lines of `transcript.strip().split("\n")` that pass the
`if line.strip():` test (`main2.py` lines 460-465). -/
def retainedLines (s : List Char) : List (List Char) :=
  (splitLines (pyStrip s)).filter (fun l => !(pyStrip l).isEmpty)

/-- Python newline join of the formatted lines (`main2.py` line 472). -/
def joinLines : List (List Char) → List Char
  | [] => []
  | [l] => l
  | l :: rest => l ++ '\n' :: joinLines rest

/-- `format_transcript` (`main2.py` lines 449-473): strip the transcript,
split into lines, drop blank lines, strip timestamp ranges, and re-join
with newlines. -/
def format_transcript (s : List Char) : List Char :=
  joinLines ((retainedLines s).map processLine)

/-- A text "contains a blank line" when it is nonempty and one of its lines
is empty or whitespace-only (the natural reading of the spec's guarantee;
the empty text has no lines). -/
def hasBlankLine (t : List Char) : Bool :=
  !t.isEmpty && (splitLines t).any (fun l => (pyStrip l).isEmpty)

/-- Modelled from the spec words "the text after the marker (everything
following the separator, i.e. the whole remainder of the line)": drop
everything up to and including the first occurrence of `"-->"` and keep
the entire rest of the line.  Used only to compare the spec reading of
claim C3 with what the code computes. -/
def specRemainderAfterMarker : List Char → List Char
  | '-' :: '-' :: '>' :: rest => rest
  | _ :: rest => specRemainderAfterMarker rest
  | [] => []

/-! ### The prompt table and prompt construction (`main2.py` lines 13-85, 321-322) -/

/-- The `prompts` dict of `main2.py` lines 13-85, as an association list. -/
def prompts : List (List Char × List Char) := [
  (str "Meeting Recording", str "You are given a transcript from a meeting. Please provide a detailed summary of the discussion, including:\n    1. The main topic or subject of the meeting.\n    2. Key points and decisions made.\n    3. Action items or next steps.\n    4. The tone of the discussion (e.g., formal, casual, urgent).\n    5. Participant interactions and engagement levels.\n    6. Any challenges or disagreements discussed.\n    7. Follow-up tasks or deadlines mentioned."),
  (str "Song", str "You are given a transcript from a song. Please provide a detailed summary, including:\n    1. The main theme or message of the song.\n    2. The emotional tone and mood (e.g., happy, sad, romantic, angry).\n    3. The names of the singers, artists, or bands if mentioned.\n    4. Notable lyrics or phrases and their significance.\n    5. Musical style, genre, or instrumentation mentioned.\n    6. Cultural or historical context if relevant.\n    7. The overall impact or message of the song."),
  (str "Lecture", str "You are given a transcript from an educational lecture. Please provide a detailed summary, including:\n    1. The main subject and key concepts covered.\n    2. Important definitions, theories, or principles explained.\n    3. Examples, case studies, or illustrations used.\n    4. Key takeaways and learning points.\n    5. Any assignments, exercises, or recommended further reading.\n    6. The tone and teaching style of the lecturer (e.g., engaging, formal, interactive).\n    7. Questions asked by students and answers provided."),
  (str "Podcast", str "You are given a transcript from a podcast. Please provide a detailed summary, including:\n    1. The main topic and theme of the episode.\n    2. Key discussions, insights, or arguments shared.\n    3. Guest speakers and their contributions or expertise.\n    4. Notable quotes or memorable moments.\n    5. Resources, books, or references mentioned.\n    6. The tone and style of the podcast (e.g., conversational, informative, humorous).\n    7. Key takeaways or calls to action for the audience."),
  (str "Interview", str "You are given a transcript from an interview. Please provide a detailed summary, including:\n    1. The background of the interviewee and interviewer.\n    2. Main topics or themes discussed.\n    3. Key insights, experiences, or stories shared.\n    4. Notable quotes or memorable moments.\n    5. Professional achievements or projects mentioned.\n    6. The tone and style of the interview (e.g., formal, casual, confrontational).\n    7. Future plans, goals, or advice shared by the interviewee."),
  (str "Audiobook", str "You are given a transcript from an audiobook. Please provide a detailed summary, including:\n    1. The genre and style of the book (e.g., fiction, non-fiction, self-help).\n    2. Main plot points or key concepts covered.\n    3. Character descriptions or important figures.\n    4. Notable quotes or passages and their significance.\n    5. Themes, motifs, or underlying messages.\n    6. The tone and narration style (e.g., dramatic, conversational).\n    7. The overall impact or message of the book."),
  (str "Voice Memo", str "You are given a transcript from a voice memo. Please provide a detailed summary, including:\n    1. The main purpose or subject of the memo.\n    2. Key points, instructions, or reminders.\n    3. Time-sensitive information or deadlines.\n    4. Follow-up tasks or action items.\n    5. Context or background information.\n    6. The tone and urgency of the memo (e.g., urgent, casual, formal).\n    7. Any additional details or clarifications provided."),
  (str "Conference Talk", str "You are given a transcript from a conference talk. Please provide a detailed summary, including:\n    1. The main topic and field of discussion.\n    2. Key innovations, findings, or ideas presented.\n    3. Methodologies, approaches, or frameworks discussed.\n    4. The impact and implications of the work.\n    5. Questions from the audience and answers provided.\n    6. The tone and style of the presentation (e.g., technical, inspirational).\n    7. Key takeaways or recommendations for the audience.")]

/-- Prompt construction of `summarize_with_model` (`main2.py` lines 321-322):
look up the template for the audio type (with the fallback sentinel), then
append the context section (with the placeholder for an empty context), the
transcript section and the closing cue. -/
def build_prompt (context text audio_type : List Char) : List Char :=
  ((prompts.lookup audio_type).getD (str "No prompt available for this audio type."))
    ++ str "\n\nContext: "
    ++ (if context.isEmpty then str "No additional context provided." else context)
    ++ str "\n\nTranscript:\n" ++ text ++ str "\n\nSummary:"

/-! ### Streamed generation response (`main2.py` lines 324-352) -/

/-- One line of the streamed generation response body, as the loop of
`summarize_with_model` sees it: an empty (falsy) line, a JSON object whose
`response` field defaults to `""` and whose `done` field defaults to
`False` (`main2.py` lines 336-343), or a line `json.loads` rejects. -/
inductive StreamLine : Type
  | empty : StreamLine
  | json (response : List Char) (done : Bool) : StreamLine
  | malformed : StreamLine
deriving DecidableEq

/-- Outcome of the streaming loop of `main2.py` lines 335-344: either the
accumulated text, or a `json.JSONDecodeError` escaping the loop. -/
inductive StreamOutcome : Type
  | assembled (acc : List Char) : StreamOutcome
  | decodeError : StreamOutcome
deriving DecidableEq

/-- The `for line in response.iter_lines()` loop of `main2.py` lines
335-344: skip falsy lines, abort on a malformed line, otherwise append the
`response` field and break when `done` is truthy. -/
def assemble_stream (acc : List Char) : List StreamLine → StreamOutcome
  | [] => .assembled acc
  | .empty :: rest => assemble_stream acc rest
  | .malformed :: _ => .decodeError
  | .json r d :: rest =>
    if d then .assembled (acc ++ r) else assemble_stream (acc ++ r) rest

/-- The generation endpoint's HTTP response: status code, the `response.text`
body, and the body as the sequence of lines `iter_lines` yields. -/
structure HttpResponse : Type where
  status : Nat
  body : List Char
  lines : List StreamLine
deriving DecidableEq

/-- The JSON payload POSTed to `/api/generate`
(`main2.py` lines 325-328): model name and composed prompt. -/
structure GenRequest : Type where
  model : List Char
  prompt : List Char
deriving DecidableEq

/-- The request `summarize_with_model` sends (`main2.py` lines 321-328). -/
def summarize_request (llm_model_name context text audio_type : List Char) : GenRequest :=
  ⟨llm_model_name, build_prompt context text audio_type⟩

/-- `summarize_with_model` (`main2.py` lines 307-352) after the POST: on
status 200 run the streaming loop, degrading a decode error to the
diagnostic string built from `response.text`; on any other status raise
(`Except.error`) with the interpolated message. -/
def summarize_with_model (llm_model_name context text audio_type : List Char)
    (resp : HttpResponse) : Except (List Char) (List Char) :=
  if resp.status = 200 then
    match assemble_stream [] resp.lines with
    | .assembled s => .ok s
    | .decodeError =>
      .ok (str "Failed to parse the response from the server. Raw response: " ++ resp.body)
  else
    .error (str "Failed to summarize with model " ++ llm_model_name ++ str ": " ++ resp.body)

/-! ### The orchestrator `translate_and_summarize` (`main2.py` lines 381-447) -/

/-- The exceptions `translate_and_summarize` can raise, in program order:
the FFmpeg failure of `preprocess_audio_file` (line 377), the two
`FileNotFoundError`s (lines 410, 414), the re-raised whisper
`CalledProcessError` (line 425), and an exception raised by
`summarize_with_model` (line 350). -/
inductive PipelineError : Type
  | ffmpegFailed : PipelineError
  | whisperBinaryNotFound : PipelineError
  | whisperModelNotFound : PipelineError
  | whisperFailed : PipelineError
  | generationFailed (msg : List Char) : PipelineError
deriving DecidableEq

/-- The environment a run of `translate_and_summarize` interacts with:
whether each external step succeeds, what the speech engine writes to the
redirected output file, and the generation endpoint's response. -/
structure RunEnv : Type where
  ffmpegOk : Bool
  whisperBinaryExists : Bool
  whisperModelExists : Bool
  whisperOk : Bool
  transcriptContent : List Char
  http : HttpResponse
deriving DecidableEq

/-- Observable outcome of a run of `translate_and_summarize`: the returned
value or propagated exception, whether the converted `.wav` file and the
whisper output file still exist when the call ends, the content this run
wrote to `transcript.txt` (`none` when the run never reached the write),
and the request posted to the generation endpoint (`none` when the run
never reached the POST). -/
structure RunTrace : Type where
  result : Except PipelineError (List Char × List Char)
  wavExists : Bool
  rawOutputExists : Bool
  transcriptFileContent : Option (List Char)
  requestSent : Option GenRequest

/-- `translate_and_summarize` (`main2.py` lines 381-447) as a state trace.
The steps in source order: FFmpeg conversion (creates the `.wav`, line 401),
whisper binary and model existence checks (lines 409-414), the whisper run
(shell redirection creates the output file, lines 417-425), reading the raw
transcript (line 429), formatting it (line 432), writing `transcript.txt`
(lines 435-437), summarizing the RAW transcript (line 440), and the
success-only cleanup of the two transient files (lines 443-444).  Note the
`os.remove` calls run only after a successful `summarize_with_model`; no
`try`/`finally` protects them. -/
def translate_and_summarize
    (audio_file_path context whisper_model_name llm_model_name audio_type : List Char)
    (env : RunEnv) : RunTrace :=
  if !env.ffmpegOk then
    { result := .error .ffmpegFailed, wavExists := false, rawOutputExists := false,
      transcriptFileContent := none, requestSent := none }
  else if !env.whisperBinaryExists then
    { result := .error .whisperBinaryNotFound, wavExists := true, rawOutputExists := false,
      transcriptFileContent := none, requestSent := none }
  else if !env.whisperModelExists then
    { result := .error .whisperModelNotFound, wavExists := true, rawOutputExists := false,
      transcriptFileContent := none, requestSent := none }
  else if !env.whisperOk then
    { result := .error .whisperFailed, wavExists := true, rawOutputExists := true,
      transcriptFileContent := none, requestSent := none }
  else
    match summarize_with_model llm_model_name context env.transcriptContent audio_type
        env.http with
    | .error e =>
      { result := .error (.generationFailed e), wavExists := true, rawOutputExists := true,
        transcriptFileContent := some (format_transcript env.transcriptContent),
        requestSent := some (summarize_request llm_model_name context
          env.transcriptContent audio_type) }
    | .ok summary =>
      { result := .ok (summary, str "transcript.txt"), wavExists := false,
        rawOutputExists := false,
        transcriptFileContent := some (format_transcript env.transcriptContent),
        requestSent := some (summarize_request llm_model_name context
          env.transcriptContent audio_type) }

/-- True when an `Except` result is a propagated exception. -/
def isFailure : Except PipelineError (List Char × List Char) → Bool
  | .error _ => true
  | .ok _ => false

/-- A run environment in which every external step up to summarization
succeeds: FFmpeg converts, the whisper binary and model exist, and the
whisper run exits cleanly writing `t` to the redirected output file. -/
def okEnv (t : List Char) (h : HttpResponse) : RunEnv :=
  { ffmpegOk := true, whisperBinaryExists := true, whisperModelExists := true,
    whisperOk := true, transcriptContent := t, http := h }

/-! ### Lemmas about `containsArrow` and `splitArrow` -/

theorem containsArrow_iff (s : List Char) :
    containsArrow s = true ↔ ∃ a b, s = a ++ arrow ++ b := by
  induction s with
  | nil =>
    simp only [containsArrow]
    constructor
    · intro h; cases h
    · rintro ⟨a, b, h⟩
      exact absurd h.symm (by simp [arrow])
  | cons c rest ih =>
    simp only [containsArrow, Bool.or_eq_true, List.isPrefixOf_iff_prefix, ih]
    constructor
    · rintro (⟨t, ht⟩ | ⟨a, b, hab⟩)
      · exact ⟨[], t, by simp [← ht]⟩
      · exact ⟨c :: a, b, by simp [hab]⟩
    · rintro ⟨a, b, hab⟩
      cases a with
      | nil => exact Or.inl ⟨b, by simpa using hab.symm⟩
      | cons a0 a' =>
        right
        rw [List.cons_append] at hab
        injection hab with h1 h2
        exact ⟨a', b, h2⟩

theorem containsArrow_mono {t s : List Char} (h : t <:+: s)
    (ht : containsArrow t = true) : containsArrow s = true := by
  rcases (containsArrow_iff t).mp ht with ⟨a, b, hab⟩
  rcases h with ⟨u, v, huv⟩
  exact (containsArrow_iff s).mpr ⟨u ++ a, b ++ v, by simp [← huv, hab]⟩

theorem splitArrow_ne_nil (s : List Char) : splitArrow s ≠ [] := by
  induction s using splitArrow.induct with
  | case1 rest ih => simp [splitArrow]
  | case2 c rest hne hnil ih => exact absurd hnil ih
  | case3 c rest hne l ls hcons ih =>
    rw [splitArrow.eq_2 _ _ hne, hcons]
    simp
  | case4 => simp [splitArrow]

theorem splitArrow_head_pref (s : List Char) :
    ∀ l ls, splitArrow s = l :: ls → l <+: s := by
  induction s using splitArrow.induct with
  | case1 rest ih =>
    intro l ls h
    rw [splitArrow.eq_1] at h
    cases h
    exact List.nil_prefix
  | case2 c rest hne hnil ih =>
    intro l ls h
    rw [splitArrow.eq_2 _ _ hne, hnil] at h
    cases h
    exact ⟨rest, rfl⟩
  | case3 c rest hne l0 ls0 hcons ih =>
    intro l ls h
    rw [splitArrow.eq_2 _ _ hne, hcons] at h
    cases h
    exact (List.cons_prefix_cons).mpr ⟨rfl, ih l0 ls0 hcons⟩
  | case4 =>
    intro l ls h
    rw [splitArrow.eq_3] at h
    cases h
    exact List.nil_prefix

theorem containsArrow_splitArrow (s : List Char) :
    ∀ l ∈ splitArrow s, containsArrow l = false := by
  induction s using splitArrow.induct with
  | case1 rest ih =>
    rw [splitArrow.eq_1]
    intro l hl
    rcases List.mem_cons.mp hl with rfl | hmem
    · rfl
    · exact ih l hmem
  | case2 c rest hne hnil ih =>
    rw [splitArrow.eq_2 _ _ hne, hnil]
    intro l hl
    rcases List.mem_cons.mp hl with rfl | hmem
    · simp [containsArrow, arrow, List.isPrefixOf]
    · cases hmem
  | case3 c rest hne l0 ls0 hcons ih =>
    rw [splitArrow.eq_2 _ _ hne, hcons]
    intro l hl
    rcases List.mem_cons.mp hl with rfl | hmem
    · rw [Bool.eq_false_iff]
      intro hc
      rcases (containsArrow_iff _).mp hc with ⟨a, b, hab⟩
      cases a with
      | nil =>
        rw [List.nil_append, show arrow ++ b = '-' :: '-' :: '>' :: b from rfl] at hab
        rcases splitArrow_head_pref rest l0 ls0 hcons with ⟨t, ht⟩
        injection hab with hc1 hl0
        exact hne (b ++ t) hc1 (by rw [← ht, hl0]; simp)
      | cons a0 a' =>
        have hl0 : containsArrow l0 = true := by
          apply (containsArrow_iff _).mpr
          refine ⟨a', b, ?_⟩
          rw [List.cons_append] at hab
          injection hab with _ h2
        have := ih l0 (hcons ▸ List.mem_cons_self _ _)
        rw [this] at hl0
        cases hl0
    · exact ih l (hcons ▸ List.mem_cons_of_mem _ hmem)
  | case4 =>
    rw [splitArrow.eq_3]
    intro l hl
    rcases List.mem_cons.mp hl with rfl | hmem
    · rfl
    · cases hmem

theorem mem_splitArrow_subset (s : List Char) :
    ∀ l ∈ splitArrow s, ∀ c ∈ l, c ∈ s := by
  induction s using splitArrow.induct with
  | case1 rest ih =>
    rw [splitArrow.eq_1]
    intro l hl c hc
    rcases List.mem_cons.mp hl with rfl | hmem
    · cases hc
    · exact List.mem_cons_of_mem _ (List.mem_cons_of_mem _ (List.mem_cons_of_mem _ (ih l hmem c hc)))
  | case2 c0 rest hne hnil ih =>
    rw [splitArrow.eq_2 _ _ hne, hnil]
    intro l hl c hc
    rcases List.mem_cons.mp hl with rfl | hmem
    · rcases List.mem_singleton.mp hc with rfl
      exact List.mem_cons_self _ _
    · cases hmem
  | case3 c0 rest hne l0 ls0 hcons ih =>
    rw [splitArrow.eq_2 _ _ hne, hcons]
    intro l hl c hc
    rcases List.mem_cons.mp hl with rfl | hmem
    · rcases List.mem_cons.mp hc with rfl | hc'
      · exact List.mem_cons_self _ _
      · exact List.mem_cons_of_mem _ (ih l0 (hcons ▸ List.mem_cons_self _ _) c hc')
    · exact List.mem_cons_of_mem _ (ih l (hcons ▸ List.mem_cons_of_mem _ hmem) c hc)
  | case4 =>
    rw [splitArrow.eq_3]
    intro l hl c hc
    rcases List.mem_cons.mp hl with rfl | hmem
    · cases hc
    · cases hmem

/-! ### Lemmas about `splitLines` and `joinLines` -/

theorem splitLines_ne_nil (s : List Char) : splitLines s ≠ [] := by
  cases s with
  | nil => simp [splitLines]
  | cons c rest =>
    simp only [splitLines]
    split
    · simp
    · split <;> simp

theorem not_newline_mem_splitLines (s : List Char) :
    ∀ l ∈ splitLines s, '\n' ∉ l := by
  induction s with
  | nil =>
    intro l hl
    have : l = [] := by simpa [splitLines] using hl
    simp [this]
  | cons c rest ih =>
    simp only [splitLines]
    split
    · intro l hl
      rcases List.mem_cons.mp hl with rfl | hmem
      · simp
      · exact ih l hmem
    · rename_i hc
      split
      · rename_i heq
        exact absurd heq (splitLines_ne_nil rest)
      · rename_i l0 ls0 heq
        intro l hl
        rcases List.mem_cons.mp hl with rfl | hmem
        · intro hn
          rcases List.mem_cons.mp hn with h | h
          · exact hc h.symm
          · exact ih l0 (heq ▸ List.mem_cons_self _ _) h
        · exact ih l (heq ▸ List.mem_cons_of_mem _ hmem)

theorem splitLines_of_no_newline (s : List Char) (h : '\n' ∉ s) :
    splitLines s = [s] := by
  induction s with
  | nil => rfl
  | cons c rest ih =>
    have hc : ¬ c = '\n' := fun hce => h (by simp [hce])
    have hr := ih (fun hm => h (List.mem_cons_of_mem _ hm))
    simp only [splitLines, if_neg hc, hr]

theorem splitLines_append (p t : List Char) (h : '\n' ∉ p) :
    splitLines (p ++ '\n' :: t) = p :: splitLines t := by
  induction p with
  | nil => simp [splitLines]
  | cons c p' ih =>
    have hc : ¬ c = '\n' := fun hce => h (by simp [hce])
    have hp' := ih (fun hm => h (List.mem_cons_of_mem _ hm))
    simp only [List.cons_append, splitLines, if_neg hc, List.append_eq, hp']

theorem splitLines_joinLines (ps : List (List Char)) (h1 : ps ≠ [])
    (h2 : ∀ p ∈ ps, '\n' ∉ p) : splitLines (joinLines ps) = ps := by
  induction ps with
  | nil => exact absurd rfl h1
  | cons p ps' ih =>
    cases ps' with
    | nil =>
      show splitLines (joinLines [p]) = [p]
      rw [show joinLines [p] = p from rfl]
      exact splitLines_of_no_newline p (h2 p (List.mem_cons_self _ _))
    | cons q ps'' =>
      rw [show joinLines (p :: q :: ps'') = p ++ '\n' :: joinLines (q :: ps'') from rfl]
      rw [splitLines_append _ _ (h2 p (List.mem_cons_self _ _))]
      rw [ih (by simp) (fun x hx => h2 x (List.mem_cons_of_mem _ hx))]

theorem joinLines_head? (p : List Char) (ps : List (List Char)) (hp : p ≠ []) :
    (joinLines (p :: ps)).head? = p.head? := by
  cases ps with
  | nil => rfl
  | cons q ps' =>
    rw [show joinLines (p :: q :: ps') = p ++ '\n' :: joinLines (q :: ps') from rfl]
    cases p with
    | nil => exact absurd rfl hp
    | cons c t => rfl

theorem joinLines_getLast? (ps : List (List Char)) (q : List Char)
    (hlast : ps.getLast? = some q) (hq : q ≠ []) :
    (joinLines ps).getLast? = q.getLast? := by
  induction ps with
  | nil => cases hlast
  | cons p ps' ih =>
    cases ps' with
    | nil =>
      have : p = q := by simpa using hlast
      subst this
      rfl
    | cons r ps'' =>
      rw [show joinLines (p :: r :: ps'') = p ++ '\n' :: joinLines (r :: ps'') from rfl]
      rw [List.getLast?_append]
      have hl' : (r :: ps'').getLast? = some q := by
        rw [← List.getLast?_cons_cons (a := p)]
        exact hlast
      have hJ := ih hl'
      have hqs : ∃ d, q.getLast? = some d := by
        cases q with
        | nil => exact absurd rfl hq
        | cons d t => exact ⟨(d :: t).getLast (by simp), List.getLast?_eq_getLast _ _⟩
      rcases hqs with ⟨d, hd⟩
      cases hJc : joinLines (r :: ps'') with
      | nil => rw [hJc, hd] at hJ; cases hJ
      | cons j js =>
        rw [hJc] at hJ
        rw [List.getLast?_cons_cons, hJ, hd]
        rfl

/-! ### Lemmas about `pyStrip` -/

theorem dropWhile_head_not {α : Type} {p : α → Bool} {s : List α} {c : α} {t : List α}
    (h : List.dropWhile p s = c :: t) : p c = false := by
  have := List.head?_dropWhile_not p s
  rw [h] at this
  exact this

theorem pyStrip_within (s : List Char) : pyStrip s <:+: s := by
  unfold pyStrip
  have h1 : s.dropWhile isSpace <:+ s := List.dropWhile_suffix _
  have h2 : (s.dropWhile isSpace).reverse.dropWhile isSpace <:+ (s.dropWhile isSpace).reverse :=
    List.dropWhile_suffix _
  have h3 : ((s.dropWhile isSpace).reverse.dropWhile isSpace).reverse <+: s.dropWhile isSpace := by
    have h3' := (@List.reverse_prefix Char
      ((s.dropWhile isSpace).reverse.dropWhile isSpace)
      ((s.dropWhile isSpace).reverse)).mpr h2
    rwa [List.reverse_reverse] at h3'
  exact h3.isInfix.trans h1.isInfix

theorem mem_pyStrip {c : Char} {s : List Char} (h : c ∈ pyStrip s) : c ∈ s :=
  (pyStrip_within s).subset h

theorem pyStrip_eq_nil_iff (s : List Char) :
    pyStrip s = [] ↔ ∀ c ∈ s, isSpace c = true := by
  unfold pyStrip
  rw [List.reverse_eq_nil_iff, List.dropWhile_eq_nil_iff]
  simp only [List.mem_reverse]
  constructor
  · intro h c hc
    by_cases hsp : isSpace c = true
    · exact hsp
    · have hsplit := List.takeWhile_append_dropWhile (p := isSpace) (l := s)
      rw [← hsplit] at hc
      rcases List.mem_append.mp hc with htk | hdr
      · exact absurd (List.mem_takeWhile_imp htk) hsp
      · exact h c hdr
  · intro h c hc
    exact h c ((List.dropWhile_suffix _).subset hc)

theorem pyStrip_getLast_not_space {s : List Char} {c : Char}
    (h : (pyStrip s).getLast? = some c) : isSpace c = false := by
  unfold pyStrip at h
  rw [List.getLast?_reverse] at h
  cases hR : List.dropWhile isSpace (s.dropWhile isSpace).reverse with
  | nil => rw [hR] at h; cases h
  | cons d t =>
    rw [hR] at h
    have : d = c := by simpa using h
    subst this
    exact dropWhile_head_not hR

theorem pyStrip_head_not_space {s : List Char} {c : Char}
    (h : (pyStrip s).head? = some c) : isSpace c = false := by
  unfold pyStrip at h
  rw [List.head?_reverse] at h
  rcases List.dropWhile_suffix (l := (s.dropWhile isSpace).reverse) isSpace with ⟨u, hu⟩
  have hrev : (s.dropWhile isSpace).reverse.getLast? = some c := by
    rw [← hu, List.getLast?_append, h]
    rfl
  rw [List.getLast?_reverse] at hrev
  cases hB : s.dropWhile isSpace with
  | nil => rw [hB] at hrev; cases hrev
  | cons d t =>
    rw [hB] at hrev
    have : d = c := by simpa using hrev
    subst this
    exact dropWhile_head_not hB

theorem pyStrip_eq_self {s : List Char}
    (h1 : ∀ c, s.head? = some c → isSpace c = false)
    (h2 : ∀ c, s.getLast? = some c → isSpace c = false) : pyStrip s = s := by
  have hd : s.dropWhile isSpace = s := by
    cases s with
    | nil => rfl
    | cons c t =>
      rw [List.dropWhile_cons, if_neg]
      simp [h1 c rfl]
  unfold pyStrip
  rw [hd]
  have hd2 : s.reverse.dropWhile isSpace = s.reverse := by
    cases hs : s.reverse with
    | nil => rfl
    | cons c t =>
      rw [List.dropWhile_cons, if_neg]
      have hcl : s.getLast? = some c := by
        rw [← List.head?_reverse, hs]
        rfl
      simp [h2 c hcl]
  rw [hd2, List.reverse_reverse]

theorem pyStrip_idem (s : List Char) : pyStrip (pyStrip s) = pyStrip s :=
  pyStrip_eq_self (fun _ h => pyStrip_head_not_space h)
    (fun _ h => pyStrip_getLast_not_space h)

/-! ### Helper lemmas tying the pieces of `format_transcript` together -/

theorem filter_getLast? {α : Type} (f : α → Bool) (L : List α) (a : α)
    (h1 : L.getLast? = some a) (h2 : f a = true) :
    (L.filter f).getLast? = some a := by
  induction L with
  | nil => cases h1
  | cons b L' ih =>
    cases L' with
    | nil =>
      have : b = a := by simpa using h1
      subst this
      rw [List.filter_cons_of_pos h2]
      rfl
    | cons c L'' =>
      rw [List.getLast?_cons_cons] at h1
      have hfl := ih h1
      rw [List.filter_cons]
      split
      · revert hfl
        cases List.filter f (c :: L'') with
        | nil => intro hfl; simp at hfl
        | cons x xs => intro hfl; rw [List.getLast?_cons_cons]; exact hfl
      · exact hfl

theorem splitLines_getLast_aux (s : List Char) (d : Char)
    (hd : s.getLast? = some d) (hd' : d ≠ '\n') :
    ∃ m, (splitLines s).getLast? = some m ∧ m.getLast? = some d := by
  induction s with
  | nil => cases hd
  | cons c t ih =>
    cases t with
    | nil =>
      have hcd : c = d := by simpa using hd
      subst hcd
      rw [splitLines_of_no_newline [c] (by simpa using fun h => hd' h.symm)]
      exact ⟨[c], rfl, rfl⟩
    | cons t0 t1 =>
      rw [List.getLast?_cons_cons] at hd
      rcases ih hd with ⟨m, hm1, hm2⟩
      rcases List.exists_cons_of_ne_nil (splitLines_ne_nil (t0 :: t1)) with ⟨m0, ms, hS⟩
      rw [show splitLines (c :: t0 :: t1)
            = if c = '\n' then [] :: splitLines (t0 :: t1)
              else
                match splitLines (t0 :: t1) with
                | [] => [[c]]
                | l :: ls => (c :: l) :: ls from rfl]
      rw [hS] at hm1 ⊢
      split
      · exact ⟨m, by rw [List.getLast?_cons_cons]; exact hm1, hm2⟩
      · cases ms with
        | nil =>
          have hm0 : m0 = m := by simpa using hm1
          subst hm0
          refine ⟨c :: m0, rfl, ?_⟩
          cases m0 with
          | nil => cases hm2
          | cons z zs => rw [List.getLast?_cons_cons]; exact hm2
        | cons y ys =>
          rw [List.getLast?_cons_cons] at hm1
          refine ⟨m, ?_, hm2⟩
          show ((c :: m0) :: y :: ys).getLast? = some m
          rw [List.getLast?_cons_cons]
          exact hm1

theorem mem_retained_no_newline {s l : List Char} (h : l ∈ retainedLines s) :
    '\n' ∉ l :=
  not_newline_mem_splitLines _ l (List.mem_filter.mp h).1

theorem getD_one_mem_splitArrow (l : List Char) (h : 1 < (splitArrow l).length) :
    (splitArrow l).getD 1 [] ∈ splitArrow l := by
  rw [List.getD_eq_getElem _ _ h]
  exact List.getElem_mem _

theorem processLine_no_newline {l : List Char} (h : '\n' ∉ l) :
    '\n' ∉ processLine l := by
  unfold processLine
  split
  · intro hmem
    by_cases hlen : 1 < (splitArrow l).length
    · exact h (mem_splitArrow_subset l _ (getD_one_mem_splitArrow l hlen) _ (mem_pyStrip hmem))
    · rw [List.getD_eq_default _ _ (by omega)] at hmem
      cases mem_pyStrip hmem
  · exact h

theorem containsArrow_processLine (l : List Char) :
    containsArrow (processLine l) = false := by
  unfold processLine
  split
  · by_cases hlen : 1 < (splitArrow l).length
    · have hseg := containsArrow_splitArrow l _ (getD_one_mem_splitArrow l hlen)
      cases hca : containsArrow (pyStrip ((splitArrow l).getD 1 [])) with
      | false => rfl
      | true =>
        rw [containsArrow_mono (pyStrip_within _) hca] at hseg
        cases hseg
    · rw [List.getD_eq_default _ _ (by omega)]
      rfl
  · rename_i h
    exact Bool.eq_false_iff.mpr h

theorem formattedLines (s : List Char) (h : retainedLines s ≠ []) :
    splitLines (format_transcript s) = (retainedLines s).map processLine := by
  unfold format_transcript
  apply splitLines_joinLines
  · simp [h]
  · intro p hp
    rcases List.mem_map.mp hp with ⟨l, hl, rfl⟩
    exact processLine_no_newline (mem_retained_no_newline hl)

theorem mem_of_getLast?_eq {α : Type} {L : List α} {a : α}
    (h : L.getLast? = some a) : a ∈ L := by
  cases L with
  | nil => cases h
  | cons b t =>
    rw [List.getLast?_eq_getLast _ (by simp)] at h
    have hm := List.getLast_mem (l := b :: t) (by simp)
    rwa [Option.some_inj.mp h] at hm

theorem retained_head (x : List Char) (h0 : retainedLines x ≠ []) :
    ∃ l0 L', retainedLines x = l0 :: L' ∧
      ∀ c, l0.head? = some c → isSpace c = false := by
  rcases hx : pyStrip x with _ | ⟨c0, t⟩
  · exfalso
    apply h0
    unfold retainedLines
    rw [hx]
    rfl
  · have hc0 : isSpace c0 = false := by
      apply pyStrip_head_not_space (s := x)
      rw [hx]
      rfl
    have hc0n : ¬ c0 = '\n' := by
      intro hce
      rw [hce] at hc0
      cases hc0
    rcases List.exists_cons_of_ne_nil (splitLines_ne_nil t) with ⟨mm, ms, hS⟩
    have hsl : splitLines (c0 :: t) = (c0 :: mm) :: ms := by
      rw [show splitLines (c0 :: t)
            = if c0 = '\n' then [] :: splitLines t
              else
                match splitLines t with
                | [] => [[c0]]
                | l :: ls => (c0 :: l) :: ls from rfl, if_neg hc0n, hS]
    have hnb : (!(pyStrip (c0 :: mm)).isEmpty) = true := by
      have hne : pyStrip (c0 :: mm) ≠ [] := by
        intro hp
        have := (pyStrip_eq_nil_iff _).mp hp c0 (List.mem_cons_self _ _)
        rw [this] at hc0
        cases hc0
      simpa [List.isEmpty_iff] using hne
    refine ⟨c0 :: mm, List.filter (fun l => !(pyStrip l).isEmpty) ms, ?_, ?_⟩
    · unfold retainedLines
      rw [hx, hsl]
      exact List.filter_cons_of_pos hnb
    · intro c hc
      have : c0 = c := by simpa using hc
      rw [← this]
      exact hc0

theorem retained_last (x : List Char) (h0 : retainedLines x ≠ []) :
    ∃ lz, (retainedLines x).getLast? = some lz ∧
      ∀ c, lz.getLast? = some c → isSpace c = false := by
  have hxne : pyStrip x ≠ [] := by
    intro hx
    apply h0
    unfold retainedLines
    rw [hx]
    rfl
  have hdex : ∃ d, (pyStrip x).getLast? = some d := by
    rcases List.exists_cons_of_ne_nil hxne with ⟨a, b, hab⟩
    rw [hab, List.getLast?_eq_getLast _ (by simp)]
    exact ⟨_, rfl⟩
  rcases hdex with ⟨d, hd⟩
  have hds : isSpace d = false := pyStrip_getLast_not_space hd
  have hdn : d ≠ '\n' := by
    intro hde
    rw [hde] at hds
    cases hds
  rcases splitLines_getLast_aux (pyStrip x) d hd hdn with ⟨m, hm1, hm2⟩
  have hmne : pyStrip m ≠ [] := by
    intro hp
    have hdm : d ∈ m := mem_of_getLast?_eq hm2
    have := (pyStrip_eq_nil_iff _).mp hp d hdm
    rw [this] at hds
    cases hds
  have hlast := filter_getLast? (fun l => !(pyStrip l).isEmpty)
    (splitLines (pyStrip x)) m hm1 (by simpa [List.isEmpty_iff] using hmne)
  refine ⟨m, hlast, ?_⟩
  intro c hc
  rw [hm2] at hc
  rw [← Option.some_inj.mp hc]
  exact hds

theorem processLine_eq_of_no_arrow {p : List Char}
    (h : containsArrow p = false) : processLine p = p := by
  unfold processLine
  rw [if_neg]
  rw [h]
  simp

theorem format_no_blank_of_segments (x : List Char)
    (h : ∀ l ∈ splitLines (pyStrip x), containsArrow l = true →
      pyStrip ((splitArrow l).getD 1 []) ≠ []) :
    hasBlankLine (format_transcript x) = false := by
  unfold hasBlankLine
  by_cases h0 : retainedLines x = []
  · unfold format_transcript
    rw [h0]
    rfl
  · have hany : ((splitLines (format_transcript x)).any
        fun l => (pyStrip l).isEmpty) = false := by
      rw [formattedLines x h0, List.any_eq_false]
      intro p hp
      rcases List.mem_map.mp hp with ⟨l, hl, rfl⟩
      have hlf := (List.mem_filter.mp hl).2
      unfold processLine
      split
      · rename_i hca
        have hseg := h l (List.mem_filter.mp hl).1 hca
        rw [pyStrip_idem]
        simpa [List.isEmpty_iff] using hseg
      · simpa using hlf
    rw [hany, Bool.and_false]

theorem format_idem_of_no_blank (x : List Char)
    (h : hasBlankLine (format_transcript x) = false) :
    format_transcript (format_transcript x) = format_transcript x := by
  by_cases h0 : retainedLines x = []
  · have hfx : format_transcript x = [] := by
      unfold format_transcript
      rw [h0]
      rfl
    rw [hfx]
    rfl
  · have hlines := formattedLines x h0
    set P := (retainedLines x).map processLine with hP
    have hfxP : format_transcript x = joinLines P := rfl
    by_cases hfx : format_transcript x = []
    · rw [hfx]
      rfl
    · have hfxe : (format_transcript x).isEmpty = false := by
        cases hfc : format_transcript x with
        | nil => exact absurd hfc hfx
        | cons a b => rfl
      have hall : ∀ p ∈ P, (!(pyStrip p).isEmpty) = true := by
        intro p hp
        unfold hasBlankLine at h
        rw [hfxe, hlines] at h
        simp only [Bool.not_false, Bool.true_and] at h
        rw [List.any_eq_false] at h
        have hpe := h p hp
        simpa using hpe
      have hnn : ∀ p ∈ P, p ≠ [] := by
        intro p hp hpe
        have := hall p hp
        rw [hpe] at this
        simp [pyStrip] at this
      have hstrip : pyStrip (format_transcript x) = format_transcript x := by
        apply pyStrip_eq_self
        · rcases retained_head x h0 with ⟨l0, L', hL, hl0⟩
          intro c hc
          have hPc : P = processLine l0 :: L'.map processLine := by
            rw [hP, hL]
            rfl
          have hne0 : processLine l0 ≠ [] :=
            hnn _ (by rw [hPc]; exact List.mem_cons_self _ _)
          have hhead : (format_transcript x).head? = (processLine l0).head? := by
            rw [hfxP, hPc]
            exact joinLines_head? _ _ hne0
          rw [hhead] at hc
          revert hc
          unfold processLine
          split
          · intro hc
            exact pyStrip_head_not_space hc
          · intro hc
            exact hl0 c hc
        · rcases retained_last x h0 with ⟨lz, hLz, hlz⟩
          intro c hc
          have hPz : P.getLast? = some (processLine lz) := by
            rw [hP, List.getLast?_map, hLz]
            rfl
          have hnez : processLine lz ≠ [] := hnn _ (mem_of_getLast?_eq hPz)
          have hlast : (format_transcript x).getLast? = (processLine lz).getLast? := by
            rw [hfxP]
            exact joinLines_getLast? P _ hPz hnez
          rw [hlast] at hc
          revert hc
          unfold processLine
          split
          · intro hc
            exact pyStrip_getLast_not_space hc
          · intro hc
            exact hlz c hc
      have hret2 : retainedLines (format_transcript x) = P := by
        unfold retainedLines
        rw [hstrip, hlines]
        exact List.filter_eq_self.mpr hall
      have hmap2 : P.map processLine = P := by
        have hid : ∀ p ∈ P, processLine p = p := by
          intro p hp
          rcases List.mem_map.mp (hP ▸ hp) with ⟨l, _, rfl⟩
          exact processLine_eq_of_no_arrow (containsArrow_processLine l)
        calc P.map processLine = P.map id := List.map_congr_left hid
        _ = P := List.map_id P
      have hLHS : format_transcript (format_transcript x)
          = joinLines ((retainedLines (format_transcript x)).map processLine) := rfl
      rw [hLHS, hret2, hmap2, ← hfxP]

/-! ### Lemmas about the streaming loop -/

theorem assemble_stream_until_done (t : List Char) (rest : List StreamLine)
    (pre : List (List Char)) :
    ∀ acc, assemble_stream acc
        (pre.map (fun r => StreamLine.json r false) ++ StreamLine.json t true :: rest)
      = .assembled (acc ++ pre.flatten ++ t) := by
  induction pre with
  | nil =>
    intro acc
    show StreamOutcome.assembled (acc ++ t) = _
    simp
  | cons r pre' ih =>
    intro acc
    show assemble_stream (acc ++ r)
        (pre'.map (fun x => StreamLine.json x false) ++ StreamLine.json t true :: rest) = _
    rw [ih (acc ++ r)]
    simp

theorem assemble_stream_no_done (frags : List (List Char)) :
    ∀ acc, assemble_stream acc (frags.map (fun r => StreamLine.json r false))
      = .assembled (acc ++ frags.flatten) := by
  induction frags with
  | nil =>
    intro acc
    show StreamOutcome.assembled acc = _
    simp
  | cons r fr ih =>
    intro acc
    show assemble_stream (acc ++ r) (fr.map (fun x => StreamLine.json x false)) = _
    rw [ih (acc ++ r)]
    simp

theorem assemble_stream_malformed (suf pre : List StreamLine)
    (hpre : ∀ r, StreamLine.json r true ∉ pre) :
    ∀ acc, assemble_stream acc (pre ++ StreamLine.malformed :: suf) = .decodeError := by
  induction pre with
  | nil => intro _; rfl
  | cons l pre' ih =>
    intro acc
    cases l with
    | empty =>
      show assemble_stream acc (pre' ++ StreamLine.malformed :: suf) = _
      exact ih (fun r hr => hpre r (List.mem_cons_of_mem _ hr)) acc
    | malformed => rfl
    | json r d =>
      cases d with
      | true => exact absurd (List.mem_cons_self _ _) (hpre r)
      | false =>
        show assemble_stream (acc ++ r) (pre' ++ StreamLine.malformed :: suf) = _
        exact ih (fun r' hr => hpre r' (List.mem_cons_of_mem _ hr)) (acc ++ r)

/-! ### The claims -/

/-- Claim C2, counterexample: on the raw transcript
`"00:00:01 --> 00:00:02 Hello\n\n00:00:02 --> 00:00:03 world"` the code
does NOT return `"Hello\nworld"` — `line.split("-->")[1]` keeps the end
timestamp of each range. -/
theorem claim_C2_counterexample :
    format_transcript (str "00:00:01 --> 00:00:02 Hello\n\n00:00:02 --> 00:00:03 world")
      ≠ str "Hello\nworld" := by decide

/-- Claim C2 (corrected): on the raw transcript
`"00:00:01 --> 00:00:02 Hello\n\n00:00:02 --> 00:00:03 world"`,
`format_transcript` returns exactly `"00:00:02 Hello\n00:00:03 world"`:
the blank line is dropped and the text before and including each `"-->"`
is dropped, but the end timestamp after the marker is retained. -/
theorem claim_C2 :
    format_transcript (str "00:00:01 --> 00:00:02 Hello\n\n00:00:02 --> 00:00:03 world")
      = str "00:00:02 Hello\n00:00:03 world" := by decide

/-- Claim C3, counterexample: on the line `"a --> b --> c"` the output line
is `"b"` (the segment between the first and second markers), not the
trimmed whole remainder `"b --> c"` that the claim describes. -/
theorem claim_C3_counterexample :
    (splitLines (format_transcript (str "a --> b --> c")))[0]? = some (str "b")
    ∧ pyStrip (specRemainderAfterMarker ((retainedLines (str "a --> b --> c")).getD 0 []))
        = str "b --> c"
    ∧ str "b" ≠ str "b --> c" :=
  ⟨by decide, by decide, by decide⟩

/-- Claim C3 (corrected): for every retained input line containing `"-->"`,
the corresponding output line of `format_transcript` is
`line.split("-->")[1].strip()` — the trimmed segment strictly between the
first and second occurrences of the marker (the whole remainder only when
the marker occurs exactly once), not always the whole remainder. -/
theorem claim_C3 (s : List Char) (i : Nat) (hi : i < (retainedLines s).length)
    (h : containsArrow (retainedLines s)[i] = true) :
    (splitLines (format_transcript s))[i]? =
      some (pyStrip ((splitArrow (retainedLines s)[i]).getD 1 [])) := by
  have h0 : retainedLines s ≠ [] := by
    intro he
    rw [he] at hi
    simp at hi
  rw [formattedLines s h0, List.getElem?_map, List.getElem?_eq_getElem hi]
  show some (processLine (retainedLines s)[i]) = _
  unfold processLine
  rw [if_pos h]

/-- Claim C3, witness: the theorem applied to a concrete one-line
transcript with one marker. -/
theorem claim_C3_witness :
    (splitLines (format_transcript (str "00:00:01 --> 00:00:02 Hi")))[0]?
      = some (str "00:00:02 Hi") := by
  rw [claim_C3 (str "00:00:01 --> 00:00:02 Hi") 0 (by decide) (by decide)]
  decide

/-- Claim C4, counterexample: the input `"a\n --> \nb"` has a line whose
only non-whitespace content precedes the marker; the code appends the
empty processed line, so the output `"a\n\nb"` contains a blank line. -/
theorem claim_C4_counterexample :
    hasBlankLine (format_transcript (str "a\n --> \nb")) = true := by decide

/-- Claim C4 (corrected): the output of `format_transcript` contains no
blank line PROVIDED every input line containing `"-->"` has some
non-whitespace text in its `split("-->")[1]` segment; input blank lines
themselves are always dropped, but a marker line whose segment after the
marker is whitespace-only produces a blank output line. -/
theorem claim_C4 (x : List Char)
    (h : ∀ l ∈ splitLines (pyStrip x), containsArrow l = true →
      pyStrip ((splitArrow l).getD 1 []) ≠ []) :
    hasBlankLine (format_transcript x) = false :=
  format_no_blank_of_segments x h

/-- Claim C4, witness: a transcript with a blank line and timestamped
lines formats to blank-line-free output. -/
theorem claim_C4_witness :
    hasBlankLine (format_transcript (str "00:00:01 --> 00:00:02 Hi\n\nok")) = false :=
  claim_C4 (str "00:00:01 --> 00:00:02 Hi\n\nok") (by decide)

/-- Claim C5, counterexample: `format_transcript` is not idempotent on
`"a\n --> \nb"`: the first pass yields `"a\n\nb"` (with a blank line) and
the second pass drops that blank line. -/
theorem claim_C5_counterexample :
    format_transcript (format_transcript (str "a\n --> \nb"))
      ≠ format_transcript (str "a\n --> \nb") := by decide

/-- Claim C5 (corrected): `format_transcript` is idempotent on every input
whose formatted output contains no blank line (equivalently, whenever no
marker line's post-marker segment is whitespace-only); it is not
idempotent in general. -/
theorem claim_C5 (x : List Char)
    (h : hasBlankLine (format_transcript x) = false) :
    format_transcript (format_transcript x) = format_transcript x :=
  format_idem_of_no_blank x h

/-- Claim C5, witness: idempotence on a concrete well-behaved transcript. -/
theorem claim_C5_witness :
    format_transcript (format_transcript (str "00:00:01 --> 00:00:02 Hi\nok"))
      = format_transcript (str "00:00:01 --> 00:00:02 Hi\nok") :=
  claim_C5 (str "00:00:01 --> 00:00:02 Hi\nok") (by decide)

theorem summarize_assembles (llm context text audio_type body : List Char)
    (lines : List StreamLine) (s : List Char)
    (h : assemble_stream [] lines = .assembled s) :
    summarize_with_model llm context text audio_type ⟨200, body, lines⟩ = .ok s := by
  show (match assemble_stream [] lines with
        | StreamOutcome.assembled s => Except.ok s
        | StreamOutcome.decodeError =>
            Except.ok (str "Failed to parse the response from the server. Raw response: "
              ++ body)) = Except.ok s
  rw [h]

theorem summarize_decodeError (llm context text audio_type body : List Char)
    (lines : List StreamLine) (h : assemble_stream [] lines = .decodeError) :
    summarize_with_model llm context text audio_type ⟨200, body, lines⟩
      = .ok (str "Failed to parse the response from the server. Raw response: "
          ++ body) := by
  show (match assemble_stream [] lines with
        | StreamOutcome.assembled s => Except.ok s
        | StreamOutcome.decodeError =>
            Except.ok (str "Failed to parse the response from the server. Raw response: "
              ++ body)) = _
  rw [h]

/-- Claim C6 (confirmed): `summarize_with_model` consumes fragments in
arrival order, appending each fragment's `response` text, and stops at the
first fragment whose `done` flag is true — fragments after it never
influence the result.  First conjunct: the concrete stream
`["Hel", false], ["lo", false], [" world", true]` yields exactly
`"Hello world"` whatever follows the third fragment.  Second conjunct: in
general, for any prefix of not-done fragments followed by a done fragment
and arbitrary later lines, the result is the in-order concatenation of the
texts up to and including the done fragment. -/
theorem claim_C6 :
    (∀ (llm context text audio_type body : List Char) (rest : List StreamLine),
      summarize_with_model llm context text audio_type
        { status := 200, body := body,
          lines := [.json (str "Hel") false, .json (str "lo") false,
            .json (str " world") true] ++ rest }
        = .ok (str "Hello world"))
    ∧ (∀ (llm context text audio_type body t : List Char)
        (pre : List (List Char)) (rest : List StreamLine),
      summarize_with_model llm context text audio_type
        { status := 200, body := body,
          lines := pre.map (fun r => .json r false) ++ .json t true :: rest }
        = .ok (pre.flatten ++ t)) := by
  constructor
  · intro llm context text audio_type body rest
    rfl
  · intro llm context text audio_type body t pre rest
    exact summarize_assembles llm context text audio_type body _ _
      (by rw [assemble_stream_until_done t rest pre []]; simp)

/-- Claim C9 (confirmed, implicit): when the stream ends without any
fragment carrying a true `done` flag, the loop simply exhausts
`iter_lines` and `summarize_with_model` returns normally with the
concatenation of all fragments' texts; no error is raised. -/
theorem claim_C9 (llm context text audio_type body : List Char)
    (frags : List (List Char)) :
    summarize_with_model llm context text audio_type
      { status := 200, body := body, lines := frags.map (fun r => .json r false) }
      = .ok frags.flatten :=
  summarize_assembles llm context text audio_type body _ _
    (by rw [assemble_stream_no_done frags []]; simp)

/-- Claim C7, counterexample: the claim quantifies over all 2xx statuses,
but the code tests `status_code == 200` exactly, so on status 201 with a
malformed fragment `summarize_with_model` raises instead of returning the
diagnostic string. -/
theorem claim_C7_counterexample :
    ¬ (∀ (llm context text audio_type : List Char) (resp : HttpResponse),
        200 ≤ resp.status → resp.status < 300 →
        StreamLine.malformed ∈ resp.lines →
        summarize_with_model llm context text audio_type resp
          = .ok (str "Failed to parse the response from the server. Raw response: "
              ++ resp.body)) := by
  intro h
  have hc := h (str "m") (str "") (str "t") (str "X")
    { status := 201, body := str "B", lines := [.malformed] }
    (by decide) (by decide) (by decide)
  have he : summarize_with_model (str "m") (str "") (str "t") (str "X")
      { status := 201, body := str "B", lines := [.malformed] }
      = .error (str "Failed to summarize with model m: B") := rfl
  rw [he] at hc
  exact Except.noConfusion hc

/-- Claim C7 (corrected): if the status is exactly 200 and a fragment the
loop actually reaches fails to parse — i.e. a malformed line occurs in the
stream before any fragment with a true `done` flag — then
`summarize_with_model` does not raise: it returns the diagnostic string
containing the raw response body.  (On a non-200 2xx status the code
raises; a malformed line after a done fragment is never read.) -/
theorem claim_C7 (llm context text audio_type body : List Char)
    (pre suf : List StreamLine) (hpre : ∀ r, StreamLine.json r true ∉ pre) :
    summarize_with_model llm context text audio_type
      { status := 200, body := body, lines := pre ++ .malformed :: suf }
      = .ok (str "Failed to parse the response from the server. Raw response: "
          ++ body) :=
  summarize_decodeError llm context text audio_type body _
    (assemble_stream_malformed suf pre hpre [])

/-- Claim C7, witness: a malformed second fragment after one not-done
fragment yields the diagnostic string with the body `"B"`. -/
theorem claim_C7_witness :
    summarize_with_model (str "m") (str "") (str "t") (str "X")
      { status := 200, body := str "B",
        lines := [.json (str "S") false, .malformed] }
      = .ok (str "Failed to parse the response from the server. Raw response: B") :=
  claim_C7 (str "m") (str "") (str "t") (str "X") (str "B")
    [.json (str "S") false] [] (by intro r hr; simp at hr)

/-- Claim C1, counterexample: in a fully successful run whose raw
transcript contains a timestamp line, the request actually posted carries
the RAW transcript, which differs from the request the claim says is sent
(one built from the formatted transcript). -/
theorem claim_C1_counterexample :
    (translate_and_summarize (str "a.mp3") (str "ctx") (str "base") (str "llama") (str "X")
      (okEnv (str "00:00:01 --> 00:00:02 Hello")
        { status := 200, body := str "", lines := [] })).requestSent
      = some (summarize_request (str "llama") (str "ctx")
          (str "00:00:01 --> 00:00:02 Hello") (str "X"))
    ∧ summarize_request (str "llama") (str "ctx")
        (str "00:00:01 --> 00:00:02 Hello") (str "X")
      ≠ summarize_request (str "llama") (str "ctx")
          (format_transcript (str "00:00:01 --> 00:00:02 Hello")) (str "X") :=
  ⟨rfl, by decide⟩

/-- Claim C1 (corrected): in every run that reaches the summarization
stage, the prompt of the generation request is built from the RAW
transcript read back from the whisper output file (`main2.py` line 440
passes `transcript`, not `formatted_transcript`); only the persisted
`transcript.txt` receives the output of `format_transcript`. -/
theorem claim_C1 (audio_file_path context whisper_model llm_model audio_type : List Char)
    (env : RunEnv) (h1 : env.ffmpegOk = true) (h2 : env.whisperBinaryExists = true)
    (h3 : env.whisperModelExists = true) (h4 : env.whisperOk = true) :
    (translate_and_summarize audio_file_path context whisper_model llm_model audio_type
        env).requestSent
      = some (summarize_request llm_model context env.transcriptContent audio_type)
    ∧ (translate_and_summarize audio_file_path context whisper_model llm_model audio_type
        env).transcriptFileContent
      = some (format_transcript env.transcriptContent) := by
  unfold translate_and_summarize
  rw [h1, h2, h3, h4]
  cases summarize_with_model llm_model context env.transcriptContent audio_type
      env.http with
  | error e => exact ⟨rfl, rfl⟩
  | ok s => exact ⟨rfl, rfl⟩

/-- Claim C1, witness: the amended claim at a concrete successful run. -/
theorem claim_C1_witness :
    (translate_and_summarize (str "a.mp3") (str "") (str "w") (str "m") (str "Song")
      (okEnv (str "t") { status := 200, body := str "", lines := [] })).requestSent
      = some (summarize_request (str "m") (str "") (str "t") (str "Song"))
    ∧ (translate_and_summarize (str "a.mp3") (str "") (str "w") (str "m") (str "Song")
      (okEnv (str "t") { status := 200, body := str "", lines := [] })).transcriptFileContent
      = some (format_transcript (str "t")) :=
  claim_C1 (str "a.mp3") (str "") (str "w") (str "m") (str "Song")
    (okEnv (str "t") { status := 200, body := str "", lines := [] }) rfl rfl rfl rfl

/-- Claim C8, counterexample: a run that fails at the summarization stage
(HTTP 500) ends with the converted `.wav` file still on disk — the
`os.remove` cleanup runs only after a successful summarization, so no
cleanup happens before the error propagates. -/
theorem claim_C8_counterexample :
    isFailure (translate_and_summarize (str "a.mp3") (str "") (str "w") (str "m") (str "X")
      (okEnv (str "t") { status := 500, body := str "boom", lines := [] })).result = true
    ∧ (translate_and_summarize (str "a.mp3") (str "") (str "w") (str "m") (str "X")
      (okEnv (str "t") { status := 500, body := str "boom", lines := [] })).wavExists
      = true :=
  ⟨rfl, rfl⟩

/-- Claim C8 (corrected): `translate_and_summarize` performs NO cleanup on
failure — whenever any stage fails after the normalized-audio `.wav` file
has been created (FFmpeg succeeded), the error propagates with the `.wav`
file still existing; the transient files are removed only on success. -/
theorem claim_C8 (audio_file_path context whisper_model llm_model audio_type : List Char)
    (env : RunEnv) (h1 : env.ffmpegOk = true)
    (hf : isFailure (translate_and_summarize audio_file_path context whisper_model
      llm_model audio_type env).result = true) :
    (translate_and_summarize audio_file_path context whisper_model llm_model audio_type
      env).wavExists = true := by
  obtain ⟨f, wb, wmx, wo, tc, http⟩ := env
  have h1' : f = true := h1
  subst h1'
  cases wb with
  | false => rfl
  | true =>
    cases wmx with
    | false => rfl
    | true =>
      cases wo with
      | false => rfl
      | true =>
        cases hsm : summarize_with_model llm_model context tc audio_type http with
        | error e =>
          unfold translate_and_summarize
          rw [hsm]
          rfl
        | ok s =>
          exfalso
          unfold translate_and_summarize at hf
          rw [hsm] at hf
          simp [isFailure] at hf

/-- Claim C8, witness: the amended claim at a concrete run failing with a
404 from the generation endpoint. -/
theorem claim_C8_witness :
    (translate_and_summarize (str "b.mp3") (str "") (str "w") (str "m") (str "X")
      (okEnv (str "u") { status := 404, body := str "nf", lines := [] })).wavExists
      = true :=
  claim_C8 (str "b.mp3") (str "") (str "w") (str "m") (str "X")
    (okEnv (str "u") { status := 404, body := str "nf", lines := [] }) rfl rfl

/-- Claim C10 (confirmed, implicit): `transcript.txt` is written (with this
run's formatted transcript) BEFORE the generation request is submitted, so
in every run where formatting succeeds but summarization raises, the file
has already been overwritten and the write is not rolled back. -/
theorem claim_C10 (audio_file_path context whisper_model llm_model audio_type : List Char)
    (env : RunEnv) (h1 : env.ffmpegOk = true) (h2 : env.whisperBinaryExists = true)
    (h3 : env.whisperModelExists = true) (h4 : env.whisperOk = true)
    (h5 : env.http.status ≠ 200) :
    isFailure (translate_and_summarize audio_file_path context whisper_model llm_model
      audio_type env).result = true
    ∧ (translate_and_summarize audio_file_path context whisper_model llm_model audio_type
        env).transcriptFileContent
      = some (format_transcript env.transcriptContent) := by
  have hsm : summarize_with_model llm_model context env.transcriptContent audio_type
      env.http
      = .error (str "Failed to summarize with model " ++ llm_model ++ str ": "
          ++ env.http.body) := by
    unfold summarize_with_model
    rw [if_neg h5]
  unfold translate_and_summarize
  rw [h1, h2, h3, h4, hsm]
  exact ⟨rfl, rfl⟩

/-- Claim C10, witness: a run failing with HTTP 500 still has this run's
formatted transcript as the content written to `transcript.txt`. -/
theorem claim_C10_witness :
    isFailure (translate_and_summarize (str "c.mp3") (str "") (str "w") (str "m") (str "X")
      (okEnv (str "00:00:01 --> 00:00:02 Hi")
        { status := 500, body := str "err", lines := [] })).result = true
    ∧ (translate_and_summarize (str "c.mp3") (str "") (str "w") (str "m") (str "X")
      (okEnv (str "00:00:01 --> 00:00:02 Hi")
        { status := 500, body := str "err", lines := [] })).transcriptFileContent
      = some (format_transcript (str "00:00:01 --> 00:00:02 Hi")) :=
  claim_C10 (str "c.mp3") (str "") (str "w") (str "m") (str "X")
    (okEnv (str "00:00:01 --> 00:00:02 Hi") { status := 500, body := str "err", lines := [] })
    rfl rfl rfl rfl (by decide)

end Summarizer
